import Mathlib

/-!
Shallow embedding of the community-level crime classification pipeline of the
Chicago crime spatial analysis scripts (the `question_4` script): filtering of
raw incident records, per-community-area aggregation, k-means relabeling of
clusters into ordinal risk tiers, the right-join against the census table, and
min-max normalization of the socioeconomic indicator columns.

Conventions of the embedding:
* a pandas data frame becomes a Lean list of rows (records);
* a missing value (NaN) becomes `none` of an `Option` type;
* boolean columns (`Arrest`, `Domestic`) are `Bool` fields, their pandas mean
  is the fraction of `true` entries as a rational number;
* library calls whose code lives outside the repository (the k-means fit
  itself, the train/test split) enter as explicit function parameters, while
  all logic written in the repository is embedded concretely.
-/

namespace ChicagoCrime

/-- One raw crime incident record, the four columns the pipeline reads:
`Year`, `Community Area`, `Arrest`, `Domestic`.  A `none` value of
`communityArea` models a missing (NaN) entry of the `Community Area` column. -/
structure Incident where
  year : Int
  communityArea : Option Int
  arrest : Bool
  domestic : Bool
deriving DecidableEq, Repr

/-- Embedding of `filter_df`: keep only records with `Year` between 2008 and
2012 inclusive, then drop records whose `Community Area` equals 0, then drop
records whose `Community Area` is missing.  The trailing `astype(int)` cast of
the source is the identity here because areas are already integers. -/
def filter_df (df : List Incident) : List Incident :=
  ((df.filter fun r => decide (2008 ≤ r.year) && decide (r.year ≤ 2012)).filter
      fun r => decide (r.communityArea ≠ some 0)).filter
    fun r => decide (r.communityArea ≠ none)

/-- The integer community-area key of a filtered record (after
`astype(int)`); the default 0 is never used on records that survived
`filter_df`, whose `communityArea` is always `some`. -/
def areaOf (r : Incident) : Int := r.communityArea.getD 0

/-- Sorted list of the distinct values of a key column: the index that pandas
`value_counts().sort_index()` and `groupby(...)` (which sorts group keys
ascending) both produce. -/
def sortedKeys (l : List Int) : List Int :=
  List.insertionSort (· ≤ ·) l.dedup

/-- The ascending index of distinct community areas of the filtered table. -/
def communityAreas (df : List Incident) : List Int :=
  sortedKeys ((filter_df df).map areaOf)

/-- One row of the aggregate table `community_data` built in `main`:
`Crime Count`, `Arrest Rate`, `Domestic Rate`, indexed by community area. -/
structure AggRow where
  area : Int
  crimeCount : Nat
  arrestRate : ℚ
  domesticRate : ℚ
deriving DecidableEq, Repr

/-- The filtered records belonging to one community area (one `groupby`
group). -/
def recordsFor (df : List Incident) (a : Int) : List Incident :=
  (filter_df df).filter fun r => decide (areaOf r = a)

/-- The aggregate row of one community area: the group size
(`value_counts()`), the mean of the boolean `Arrest` column and the mean of
the boolean `Domestic` column over the group. -/
def aggRow (df : List Incident) (a : Int) : AggRow :=
  { area := a
    crimeCount := (recordsFor df a).length
    arrestRate :=
      ((recordsFor df a).countP (fun r => r.arrest) : ℚ) /
        ((recordsFor df a).length : ℚ)
    domesticRate :=
      ((recordsFor df a).countP (fun r => r.domestic) : ℚ) /
        ((recordsFor df a).length : ℚ) }

/-- Embedding of the aggregate table construction of `main` (the
`crime_counts` / `arrest_rate` / `domestic_rate` series gathered into the
`community_data` frame): one row per distinct community area of the filtered
table, in ascending index order. -/
def community_data (df : List Incident) : List AggRow :=
  (communityAreas df).map (aggRow df)

/-! ### Basic facts about the filter and the aggregate index -/

theorem mem_filter_df {df : List Incident} {r : Incident} :
    r ∈ filter_df df ↔
      r ∈ df ∧ 2008 ≤ r.year ∧ r.year ≤ 2012 ∧
        r.communityArea ≠ some 0 ∧ r.communityArea ≠ none := by
  simp only [filter_df, List.mem_filter, decide_eq_true_eq, Bool.and_eq_true,
    ne_eq]
  tauto

theorem communityArea_eq_some_areaOf {df : List Incident} {r : Incident}
    (h : r ∈ filter_df df) : r.communityArea = some (areaOf r) := by
  rcases mem_filter_df.1 h with ⟨-, -, -, -, hnone⟩
  cases hca : r.communityArea with
  | none => exact absurd hca hnone
  | some v => simp [areaOf, hca]

theorem areaOf_ne_zero {df : List Incident} {r : Incident}
    (h : r ∈ filter_df df) : areaOf r ≠ 0 := by
  rcases mem_filter_df.1 h with ⟨-, -, -, hzero, -⟩
  intro h0
  exact hzero (by rw [communityArea_eq_some_areaOf h, h0])

theorem mem_sortedKeys {l : List Int} {a : Int} :
    a ∈ sortedKeys l ↔ a ∈ l := by
  unfold sortedKeys
  rw [(List.perm_insertionSort _ _).mem_iff]
  exact List.mem_dedup

theorem nodup_sortedKeys (l : List Int) : (sortedKeys l).Nodup :=
  ((List.perm_insertionSort _ _).nodup_iff).2 (List.nodup_dedup l)

theorem sorted_sortedKeys (l : List Int) :
    (sortedKeys l).Sorted (· ≤ ·) :=
  List.sorted_insertionSort _ _

theorem sortedKeys_perm_invariant {l₁ l₂ : List Int} (h : l₁.Perm l₂) :
    sortedKeys l₁ = sortedKeys l₂ := by
  have hperm : (sortedKeys l₁).Perm (sortedKeys l₂) :=
    ((List.perm_insertionSort _ _).trans h.dedup).trans
      (List.perm_insertionSort _ _).symm
  exact List.eq_of_perm_of_sorted hperm (sorted_sortedKeys l₁)
    (sorted_sortedKeys l₂)

theorem mem_communityAreas {df : List Incident} {a : Int} :
    a ∈ communityAreas df ↔ ∃ r ∈ filter_df df, r.communityArea = some a := by
  unfold communityAreas
  rw [mem_sortedKeys, List.mem_map]
  constructor
  · rintro ⟨r, hr, rfl⟩
    exact ⟨r, hr, communityArea_eq_some_areaOf hr⟩
  · rintro ⟨r, hr, hsome⟩
    refine ⟨r, hr, ?_⟩
    have := communityArea_eq_some_areaOf hr
    rw [this] at hsome
    exact (Option.some_injective _ hsome)

/-! ### Clustering and relabeling (`KMeans_clustering`) -/

/-- One k-means centroid (`kmeans.cluster_centers_`): the mean vector of a
cluster over the three aggregate coordinates. -/
structure Centroid where
  crimeCount : ℚ
  arrestRate : ℚ
  domesticRate : ℚ
deriving DecidableEq, Repr

/-- The ordered tier names assigned to the sorted centroids
(`crime_levels = ['High', 'Moderate', 'Low']`). -/
def crime_levels : List String := ["High", "Moderate", "Low"]

/-- The cluster ids 0,1,2 ordered as the rows of
`centroid_df.sort_values(by='Crime Count', ascending=False)`: descending by
the crime-count coordinate of the centroid. -/
def sortedClusterIds (cents : Fin 3 → Centroid) : List (Fin 3) :=
  List.insertionSort (fun i j => (cents j).crimeCount ≤ (cents i).crimeCount)
    (List.finRange 3)

/-- The dictionary `sorted_centroids['Crime Level'].to_dict()`: the sorted
cluster ids (the index of the sorted frame) paired positionally with the tier
names. -/
def cluster_labels (cents : Fin 3 → Centroid) : List (Fin 3 × String) :=
  (sortedClusterIds cents).zip crime_levels

/-- Dictionary lookup, first matching key wins (keys are distinct here). -/
def lookupLevel (i : Fin 3) : List (Fin 3 × String) → Option String
  | [] => none
  | (j, s) :: rest => if i = j then some s else lookupLevel i rest

/-- `Series.map(cluster_labels)`: a cluster id maps to its tier name, a key
absent from the dictionary would map to NaN (`none`). -/
def mapLevel (cents : Fin 3 → Centroid) (i : Fin 3) : Option String :=
  lookupLevel i (cluster_labels cents)

/-- A `community_data` row after `KMeans_clustering`: the aggregate columns
plus the numeric `Cluster` column and the `Crime Level` tier column. -/
structure LabeledRow where
  area : Int
  crimeCount : Nat
  arrestRate : ℚ
  domesticRate : ℚ
  cluster : Fin 3
  crimeLevel : Option String
deriving DecidableEq, Repr

/-- Embedding of `KMeans_clustering`.  The k-means fit itself is an external
library call; it enters as the parameters `assign` (the `fit_predict` label of
each row, a function of the row key) and `cents` (the fitted
`cluster_centers_`).  The relabeling logic of the source — sorting the
centroids, zipping with the tier names, mapping the `Cluster` column through
the resulting dictionary — is embedded concretely. -/
def KMeans_clustering (assign : Int → Fin 3) (cents : Fin 3 → Centroid)
    (rows : List AggRow) : List LabeledRow :=
  rows.map fun r =>
    { area := r.area
      crimeCount := r.crimeCount
      arrestRate := r.arrestRate
      domesticRate := r.domesticRate
      cluster := assign r.area
      crimeLevel := mapLevel cents (assign r.area) }

/-- The aggregation-plus-clustering prefix of `main`, with the k-means fit
abstracted as a deterministic function `km` of the aggregate table (the fixed
`random_state=20` seed makes the library fit such a function). -/
def run_pipeline (km : List AggRow → (Int → Fin 3) × (Fin 3 → Centroid))
    (df : List Incident) : List LabeledRow :=
  KMeans_clustering (km (community_data df)).1 (km (community_data df)).2
    (community_data df)

/-! ### The join against the census table -/

/-- One row of the census table: the `Community Area Number` key and the six
socioeconomic indicator columns (`percentage_col`), each possibly missing. -/
structure CensusRow where
  areaNumber : Int
  indicators : List (Option ℚ)
deriving DecidableEq, Repr

/-- One row of the merged table: the crime-side columns (all `none` when no
community row matched the census row) and the census-side columns. -/
structure MergedRow where
  crime : Option LabeledRow
  census : CensusRow
deriving DecidableEq, Repr

/-- Embedding of `pd.merge(community_data, df_census, left_on='Community
Area', right_on='Community Area Number', how='right')`: every census row is
kept; it is paired with each matching community row, or with an all-NaN crime
side when no community row matches. -/
def merge_right (comm : List LabeledRow) (census : List CensusRow) :
    List MergedRow :=
  census.flatMap fun c =>
    if comm.filter (fun m => decide (m.area = c.areaNumber)) = [] then
      [{ crime := none, census := c }]
    else
      (comm.filter fun m => decide (m.area = c.areaNumber)).map
        fun m => { crime := some m, census := c }

/-- Whether a merged row contains a missing value in any column: the crime
columns are all NaN when no match occurred, the `Crime Level` column may be
NaN, and any census indicator may be NaN. -/
def rowHasNaN (r : MergedRow) : Bool :=
  (match r.crime with
   | none => true
   | some m => m.crimeLevel.isNone)
  || r.census.indicators.any fun v => v.isNone

/-- Embedding of `DataFrame.dropna()`: drop every row containing a missing
value. -/
def dropna (rows : List MergedRow) : List MergedRow :=
  rows.filter fun r => !(rowHasNaN r)

/-- The final joined table `merged_df` of `main`: the right join followed by
`dropna()`. -/
def merged_df (comm : List LabeledRow) (census : List CensusRow) :
    List MergedRow :=
  dropna (merge_right comm census)

/-! ### Min-max normalization (`normalize_df`) -/

/-- The minimum of a column (`df.min()`), 0 on an empty column (pandas would
give NaN there; the empty case is never used below). -/
def colMin (xs : List ℚ) : ℚ := xs.min?.getD 0

/-- The maximum of a column (`df.max()`). -/
def colMax (xs : List ℚ) : ℚ := xs.max?.getD 0

/-- The normalized value of one entry: `(x - min) / (max - min)`. -/
def normValue (xs : List ℚ) (x : ℚ) : ℚ :=
  (x - colMin xs) / (colMax xs - colMin xs)

/-- Embedding of `normalize_df` on one column: pandas broadcasts
`(df - df.min()) / (df.max() - df.min())` column by column, so each column is
normalized independently with its own minimum and maximum. -/
def normalize_df (xs : List ℚ) : List ℚ :=
  xs.map (normValue xs)

/-- The `k`-th socioeconomic indicator column of a joined table, as handed to
`normalize_df` by `logistic_regression` (`merged_df[percentage_col]`).  After
`dropna` every indicator is present, so collecting the `some` entries loses
nothing. -/
def joinedColumn (rows : List MergedRow) (k : Nat) : List ℚ :=
  rows.filterMap fun r => r.census.indicators.getD k none

/-! ### NaN-aware view of the normalization

The plain rational model above cannot express what pandas float arithmetic
does on a degenerate (constant) column, so the normalization is repeated here
over `Option ℚ`, with `none` standing for a non-finite value (NaN).  In the
constant-column case the numerator `x - min` is exactly `0`, so the zero
denominator produces `0 / 0`, which is NaN in pandas — the only non-finite
case that arises there. -/

/-- Pandas float subtraction with NaN propagation. -/
def nanSub : Option ℚ → Option ℚ → Option ℚ
  | some a, some b => some (a - b)
  | _, _ => none

/-- Pandas float division with NaN propagation; a zero denominator gives a
non-finite result (`0 / 0` is NaN), modelled as `none`. -/
def nanDiv : Option ℚ → Option ℚ → Option ℚ
  | some a, some b => if b = 0 then none else some (a / b)
  | _, _ => none

/-- `df.min()` skipping NaN entries, as pandas does. -/
def nanMin (xs : List (Option ℚ)) : Option ℚ := (xs.filterMap id).min?

/-- `df.max()` skipping NaN entries. -/
def nanMax (xs : List (Option ℚ)) : Option ℚ := (xs.filterMap id).max?

/-- `normalize_df` on one column under pandas float semantics. -/
def normalize_df_nan (xs : List (Option ℚ)) : List (Option ℚ) :=
  xs.map fun x => nanDiv (nanSub x (nanMin xs)) (nanSub (nanMax xs) (nanMin xs))

/-! ### The classification report on a degenerate test split

`classification_report` is an external library call; the model below captures
the one aspect that matters here: the report is a value, not an error, and it
contains one row per class label actually occurring in the true or predicted
test labels (with the support column counting true test rows of that class) —
a class absent from the tiny test split simply has no row. -/

/-- The class labels listed by the report: the distinct labels occurring in
the true or predicted test vectors, ascending. -/
def reportClasses (yTest yPred : List (Fin 3)) : List (Fin 3) :=
  List.insertionSort (· ≤ ·) (yTest ++ yPred).dedup

/-- The support of a class: how many true test labels equal it. -/
def support (yTest : List (Fin 3)) (c : Fin 3) : Nat :=
  yTest.countP fun y => decide (y = c)

/-- The (class, support) rows of the printed classification report. -/
def classification_report (yTest yPred : List (Fin 3)) :
    List (Fin 3 × Nat) :=
  (reportClasses yTest yPred).map fun c => (c, support yTest c)

/-! ### Column access and the missing-column failure

A raw input table is a set of column names together with the record data the
pipeline reads from them.  Reading a column that is absent fails — the pandas
`df['Year']`-style accesses of `filter_df` and `main` raise a missing-column
(`KeyError`) failure, embedded as an `Except` error. -/

/-- The pipeline error type; `MissingColumn` models the `KeyError` raised by
a pandas column access on an absent column. -/
inductive PipelineError where
  | MissingColumn (col : String)
deriving DecidableEq, Repr

/-- A raw input table: its column names, and its records. -/
structure RawTable where
  columns : List String
  records : List Incident
deriving DecidableEq, Repr

/-- The four columns the aggregation reads, in access order:
`Year` and `Community Area` in `filter_df`, then `Community Area`, `Arrest`
and `Domestic` in `main`. -/
def requiredColumns : List String :=
  ["Year", "Community Area", "Arrest", "Domestic"]

/-- A pandas column access: fails with `MissingColumn` when the column is
absent. -/
def getColumn (t : RawTable) (c : String) : Except PipelineError Unit :=
  if c ∈ t.columns then Except.ok () else Except.error (.MissingColumn c)

/-- `filter_df` with its column accesses made explicit: it reads `Year`
(the year filter) and `Community Area` (the area filters and the cast),
failing on the first absent column, then computes the pure filter. -/
def filter_df_checked (t : RawTable) : Except PipelineError (List Incident) :=
  (getColumn t "Year").bind fun _ =>
    (getColumn t "Community Area").bind fun _ =>
      Except.ok (filter_df t.records)

/-- The aggregate-table construction of `main` with its column accesses made
explicit: it runs `filter_df`, then reads `Community Area`, `Arrest` and
`Domestic` for the three grouped statistics. -/
def community_data_checked (t : RawTable) :
    Except PipelineError (List AggRow) :=
  (filter_df_checked t).bind fun _ =>
    (getColumn t "Community Area").bind fun _ =>
      (getColumn t "Arrest").bind fun _ =>
        (getColumn t "Domestic").bind fun _ =>
          Except.ok (community_data t.records)

/-! ### Structure of the sorted centroid index -/

theorem sortedClusterIds_perm (cents : Fin 3 → Centroid) :
    (sortedClusterIds cents).Perm (List.finRange 3) :=
  List.perm_insertionSort _ _

theorem sortedClusterIds_length (cents : Fin 3 → Centroid) :
    (sortedClusterIds cents).length = 3 := by
  rw [(sortedClusterIds_perm cents).length_eq, List.length_finRange]

theorem mem_sortedClusterIds (cents : Fin 3 → Centroid) (i : Fin 3) :
    i ∈ sortedClusterIds cents := by
  rw [(sortedClusterIds_perm cents).mem_iff]
  exact List.mem_finRange i

theorem sortedClusterIds_nodup (cents : Fin 3 → Centroid) :
    (sortedClusterIds cents).Nodup :=
  ((sortedClusterIds_perm cents).nodup_iff).2 (List.nodup_finRange 3)

theorem sortedClusterIds_sorted (cents : Fin 3 → Centroid) :
    (sortedClusterIds cents).Sorted
      (fun i j => (cents j).crimeCount ≤ (cents i).crimeCount) := by
  haveI : IsTotal (Fin 3)
      (fun i j => (cents j).crimeCount ≤ (cents i).crimeCount) :=
    ⟨fun i j => le_total _ _⟩
  haveI : IsTrans (Fin 3)
      (fun i j => (cents j).crimeCount ≤ (cents i).crimeCount) :=
    ⟨fun _ _ _ h1 h2 => le_trans h2 h1⟩
  exact List.sorted_insertionSort _ _

theorem sortedClusterIds_eq_triple (cents : Fin 3 → Centroid) :
    ∃ a b c : Fin 3, sortedClusterIds cents = [a, b, c] :=
  List.length_eq_three.mp (sortedClusterIds_length cents)

theorem mapLevel_of_triple {cents : Fin 3 → Centroid} {a b c : Fin 3}
    (h : sortedClusterIds cents = [a, b, c]) (i : Fin 3) :
    mapLevel cents i =
      if i = a then some "High"
      else if i = b then some "Moderate"
      else if i = c then some "Low" else none := by
  simp [mapLevel, cluster_labels, h, crime_levels, lookupLevel]

theorem cover_of_triple {cents : Fin 3 → Centroid} {a b c : Fin 3}
    (h : sortedClusterIds cents = [a, b, c]) (i : Fin 3) :
    i = a ∨ i = b ∨ i = c := by
  have := mem_sortedClusterIds cents i
  rw [h] at this
  simpa using this

theorem nodup_of_triple {cents : Fin 3 → Centroid} {a b c : Fin 3}
    (h : sortedClusterIds cents = [a, b, c]) :
    a ≠ b ∧ a ≠ c ∧ b ≠ c := by
  have := sortedClusterIds_nodup cents
  rw [h] at this
  simp only [List.nodup_cons, List.mem_cons, List.mem_singleton,
    List.not_mem_nil, or_false, List.nodup_nil, and_true, not_or] at this
  tauto

theorem desc_of_triple {cents : Fin 3 → Centroid} {a b c : Fin 3}
    (h : sortedClusterIds cents = [a, b, c]) :
    (cents b).crimeCount ≤ (cents a).crimeCount ∧
      (cents c).crimeCount ≤ (cents a).crimeCount ∧
      (cents c).crimeCount ≤ (cents b).crimeCount := by
  have := sortedClusterIds_sorted cents
  rw [h] at this
  rw [List.sorted_cons] at this
  obtain ⟨h1, this⟩ := this
  rw [List.sorted_cons] at this
  obtain ⟨h2, -⟩ := this
  exact ⟨h1 b (by simp), h1 c (by simp), h2 c (by simp)⟩

/-- C1: the relabeling step sorts the three centroids by their crime-count
coordinate in descending order and assigns tier names by rank, so a cluster
labeled "High" attains the maximal centroid crime count, a cluster labeled
"Low" attains the minimal one, and a cluster with strictly highest (resp.
lowest) centroid crime count is labeled "High" (resp. "Low") regardless of
its numeric id. -/
theorem relabel_by_centroid_rank (cents : Fin 3 → Centroid) :
    ((sortedClusterIds cents).map fun i => (cents i).crimeCount).Sorted (· ≥ ·)
    ∧ (∀ i, mapLevel cents i = some "High" →
        ∀ j, (cents j).crimeCount ≤ (cents i).crimeCount)
    ∧ (∀ i, mapLevel cents i = some "Low" →
        ∀ j, (cents i).crimeCount ≤ (cents j).crimeCount)
    ∧ (∀ i, (∀ j, j ≠ i → (cents j).crimeCount < (cents i).crimeCount) →
        mapLevel cents i = some "High")
    ∧ (∀ i, (∀ j, j ≠ i → (cents i).crimeCount < (cents j).crimeCount) →
        mapLevel cents i = some "Low") := by
  obtain ⟨a, b, c, h⟩ := sortedClusterIds_eq_triple cents
  have hmap := mapLevel_of_triple h
  have hcover := cover_of_triple h
  obtain ⟨hab, hac, hbc⟩ := nodup_of_triple h
  obtain ⟨hba, hca, hcb⟩ := desc_of_triple h
  refine ⟨?_, ?_, ?_, ?_, ?_⟩
  · rw [List.Sorted, List.pairwise_map]
    exact sortedClusterIds_sorted cents
  · intro i hi j
    have hia : i = a := by
      rcases hcover i with rfl | rfl | rfl
      · rfl
      · rw [hmap] at hi
        simp [hab.symm] at hi
      · rw [hmap] at hi
        simp [hac.symm, hbc.symm] at hi
    subst hia
    rcases hcover j with rfl | rfl | rfl
    · exact le_refl _
    · exact hba
    · exact hca
  · intro i hi j
    have hic : i = c := by
      rcases hcover i with rfl | rfl | rfl
      · rw [hmap] at hi
        simp at hi
      · rw [hmap] at hi
        simp [hab.symm] at hi
      · rfl
    subst hic
    rcases hcover j with rfl | rfl | rfl
    · exact hca
    · exact hcb
    · exact le_refl _
  · intro i hi
    have hia : i = a := by
      rcases hcover i with rfl | rfl | rfl
      · rfl
      · exact absurd hba (not_le.mpr (hi a hab))
      · exact absurd hca (not_le.mpr (hi a hac))
    subst hia
    rw [hmap]
    simp
  · intro i hi
    have hic : i = c := by
      rcases hcover i with rfl | rfl | rfl
      · exact absurd hca (not_le.mpr (hi c (Ne.symm hac)))
      · exact absurd hcb (not_le.mpr (hi c (Ne.symm hbc)))
      · rfl
    subst hic
    rw [hmap]
    simp [hac.symm, hbc.symm]

/-- C10: the cluster-id → tier dictionary built from the sorted centroids is
a bijection from the three cluster ids onto the three tier names, every
cluster id maps to a present (`some`) tier, and every row returned by
`KMeans_clustering` carries both the numeric cluster id and the (non-null)
tier of that cluster. -/
theorem cluster_tier_bijection (cents : Fin 3 → Centroid) :
    (∀ i : Fin 3, ∃ lvl ∈ crime_levels, mapLevel cents i = some lvl)
    ∧ (∀ lvl ∈ crime_levels, ∃! i : Fin 3, mapLevel cents i = some lvl)
    ∧ (∀ (assign : Int → Fin 3) (rows : List AggRow),
        ∀ row ∈ KMeans_clustering assign cents rows,
          row.crimeLevel = mapLevel cents row.cluster ∧
            row.crimeLevel.isSome = true) := by
  obtain ⟨a, b, c, h⟩ := sortedClusterIds_eq_triple cents
  have hmap := mapLevel_of_triple h
  have hcover := cover_of_triple h
  obtain ⟨hab, hac, hbc⟩ := nodup_of_triple h
  have htotal : ∀ i : Fin 3, ∃ lvl ∈ crime_levels, mapLevel cents i = some lvl := by
    intro i
    rcases hcover i with rfl | rfl | rfl
    · exact ⟨"High", by simp [crime_levels], by rw [hmap]; simp⟩
    · exact ⟨"Moderate", by simp [crime_levels], by rw [hmap]; simp [hab.symm]⟩
    · exact ⟨"Low", by simp [crime_levels], by rw [hmap]; simp [hac.symm, hbc.symm]⟩
  refine ⟨htotal, ?_, ?_⟩
  · intro lvl hlvl
    have hone : ∀ i : Fin 3, mapLevel cents i = some "High" → i = a := by
      intro i hi
      rcases hcover i with rfl | rfl | rfl
      · rfl
      · rw [hmap] at hi; simp [hab.symm] at hi
      · rw [hmap] at hi; simp [hac.symm, hbc.symm] at hi
    have htwo : ∀ i : Fin 3, mapLevel cents i = some "Moderate" → i = b := by
      intro i hi
      rcases hcover i with rfl | rfl | rfl
      · rw [hmap] at hi; simp at hi
      · rfl
      · rw [hmap] at hi; simp [hac.symm, hbc.symm] at hi
    have hthree : ∀ i : Fin 3, mapLevel cents i = some "Low" → i = c := by
      intro i hi
      rcases hcover i with rfl | rfl | rfl
      · rw [hmap] at hi; simp at hi
      · rw [hmap] at hi; simp [hab.symm] at hi
      · rfl
    simp only [crime_levels, List.mem_cons, List.mem_singleton,
      List.not_mem_nil, or_false] at hlvl
    rcases hlvl with rfl | rfl | rfl
    · refine ⟨a, ?_, hone⟩
      show mapLevel cents a = some "High"
      rw [hmap]; simp
    · refine ⟨b, ?_, htwo⟩
      show mapLevel cents b = some "Moderate"
      rw [hmap]; simp [hab.symm]
    · refine ⟨c, ?_, hthree⟩
      show mapLevel cents c = some "Low"
      rw [hmap]; simp [hac.symm, hbc.symm]
  · intro assign rows row hrow
    simp only [KMeans_clustering, List.mem_map] at hrow
    obtain ⟨r, -, rfl⟩ := hrow
    refine ⟨rfl, ?_⟩
    obtain ⟨lvl, -, hlvl⟩ := htotal (assign r.area)
    simp [hlvl]

/-! ### The aggregator contract -/

theorem mem_community_data {df : List Incident} {row : AggRow} :
    row ∈ community_data df ↔
      ∃ a ∈ communityAreas df, row = aggRow df a := by
  simp only [community_data, List.mem_map]
  constructor
  · rintro ⟨a, ha, rfl⟩
    exact ⟨a, ha, rfl⟩
  · rintro ⟨a, ha, rfl⟩
    exact ⟨a, ha, rfl⟩

theorem area_aggRow (df : List Incident) (a : Int) : (aggRow df a).area = a :=
  rfl

theorem recordsFor_ne_nil {df : List Incident} {a : Int}
    (h : a ∈ communityAreas df) : (recordsFor df a).length ≠ 0 := by
  obtain ⟨r, hr, hsome⟩ := mem_communityAreas.1 h
  have hmem : r ∈ recordsFor df a := by
    rw [recordsFor, List.mem_filter]
    refine ⟨hr, ?_⟩
    have := communityArea_eq_some_areaOf hr
    rw [this] at hsome
    simp [Option.some_injective _ hsome]
  intro hlen
  rw [List.length_eq_zero] at hlen
  rw [hlen] at hmem
  exact List.not_mem_nil r hmem

/-- C2: one aggregate row per distinct community area of the filtered record
set (year between 2008 and 2012, community area present and nonzero); for
each such area the crime count is the number of its qualifying records, the
arrest and domestic rates are the means of the boolean columns over those
records and lie in `[0, 1]`; no row is produced for area 0 or for an area
with no qualifying record. -/
theorem aggregator_contract (df : List Incident) :
    ((community_data df).map AggRow.area).Nodup
    ∧ (∀ a : Int, (∃ row ∈ community_data df, row.area = a) ↔
        ∃ r ∈ filter_df df, r.communityArea = some a)
    ∧ (∀ r : Incident, r ∈ filter_df df ↔
        r ∈ df ∧ 2008 ≤ r.year ∧ r.year ≤ 2012 ∧
          r.communityArea ≠ some 0 ∧ r.communityArea ≠ none)
    ∧ (∀ row ∈ community_data df,
        row.area ≠ 0
        ∧ 0 < row.crimeCount
        ∧ row.crimeCount = (recordsFor df row.area).length
        ∧ row.arrestRate =
            ((recordsFor df row.area).countP (fun r => r.arrest) : ℚ) /
              (row.crimeCount : ℚ)
        ∧ row.domesticRate =
            ((recordsFor df row.area).countP (fun r => r.domestic) : ℚ) /
              (row.crimeCount : ℚ)
        ∧ 0 ≤ row.arrestRate ∧ row.arrestRate ≤ 1
        ∧ 0 ≤ row.domesticRate ∧ row.domesticRate ≤ 1) := by
  refine ⟨?_, ?_, fun _ => mem_filter_df, ?_⟩
  · have : (community_data df).map AggRow.area = communityAreas df := by
      rw [community_data, List.map_map]
      simp [Function.comp_def, area_aggRow]
    rw [this]
    exact nodup_sortedKeys _
  · intro a
    constructor
    · rintro ⟨row, hrow, rfl⟩
      obtain ⟨b, hb, rfl⟩ := mem_community_data.1 hrow
      rw [area_aggRow]
      exact mem_communityAreas.1 hb
    · intro hex
      have ha : a ∈ communityAreas df := mem_communityAreas.2 hex
      exact ⟨aggRow df a, mem_community_data.2 ⟨a, ha, rfl⟩, rfl⟩
  · intro row hrow
    obtain ⟨a, ha, rfl⟩ := mem_community_data.1 hrow
    obtain ⟨r, hr, hsome⟩ := mem_communityAreas.1 ha
    have hane : a ≠ 0 := by
      have h1 := communityArea_eq_some_areaOf hr
      rw [h1] at hsome
      have := Option.some_injective _ hsome
      rw [← this]
      exact areaOf_ne_zero hr
    have hlen : (recordsFor df a).length ≠ 0 := recordsFor_ne_nil ha
    have hlenpos : 0 < (recordsFor df a).length := Nat.pos_of_ne_zero hlen
    have hlenQ : (0 : ℚ) < ((recordsFor df a).length : ℚ) := by
      exact_mod_cast hlenpos
    simp only [aggRow]
    refine ⟨hane, hlenpos, trivial, trivial, trivial, ?_, ?_, ?_, ?_⟩
    · exact div_nonneg (Nat.cast_nonneg _) (Nat.cast_nonneg _)
    · rw [div_le_one hlenQ]
      exact_mod_cast List.countP_le_length _
    · exact div_nonneg (Nat.cast_nonneg _) (Nat.cast_nonneg _)
    · rw [div_le_one hlenQ]
      exact_mod_cast List.countP_le_length _

/-! ### Permutation invariance of the pipeline -/

/-- C6: reordering the incident records produces the identical aggregate
table (it is keyed and sorted by community area), and hence — the k-means fit
with its fixed seed being a deterministic function of that table — the same
cluster id and the same tier for every community area. -/
theorem pipeline_perm_invariant (df₁ df₂ : List Incident) (h : df₁.Perm df₂) :
    community_data df₁ = community_data df₂
    ∧ ∀ km : List AggRow → (Int → Fin 3) × (Fin 3 → Centroid),
        run_pipeline km df₁ = run_pipeline km df₂ := by
  have hf : (filter_df df₁).Perm (filter_df df₂) :=
    List.Perm.filter _ (List.Perm.filter _ (List.Perm.filter _ h))
  have hAreas : communityAreas df₁ = communityAreas df₂ :=
    sortedKeys_perm_invariant (hf.map areaOf)
  have hAgg : aggRow df₁ = aggRow df₂ := by
    funext a
    have hrec : (recordsFor df₁ a).Perm (recordsFor df₂ a) :=
      List.Perm.filter _ hf
    rw [aggRow, aggRow, hrec.length_eq, List.Perm.countP_eq _ hrec,
      List.Perm.countP_eq _ hrec]
  have hcd : community_data df₁ = community_data df₂ := by
    rw [community_data, community_data, hAreas, hAgg]
  exact ⟨hcd, fun km => by rw [run_pipeline, run_pipeline, hcd]⟩

/-! ### The join step -/

theorem mem_merge_right {comm : List LabeledRow} {census : List CensusRow}
    {r : MergedRow} :
    r ∈ merge_right comm census ↔
      ∃ c ∈ census,
        (r = { crime := none, census := c } ∧
          ∀ m ∈ comm, m.area ≠ c.areaNumber) ∨
        ∃ m ∈ comm, m.area = c.areaNumber ∧
          r = { crime := some m, census := c } := by
  rw [merge_right, List.mem_flatMap]
  constructor
  · rintro ⟨c, hc, hr⟩
    refine ⟨c, hc, ?_⟩
    by_cases hfil : comm.filter (fun m => decide (m.area = c.areaNumber)) = []
    · rw [if_pos hfil, List.mem_singleton] at hr
      left
      refine ⟨hr, fun m hm hma => ?_⟩
      have hmem : m ∈ comm.filter (fun m => decide (m.area = c.areaNumber)) := by
        rw [List.mem_filter]
        exact ⟨hm, by simp [hma]⟩
      rw [hfil] at hmem
      exact List.not_mem_nil m hmem
    · rw [if_neg hfil, List.mem_map] at hr
      obtain ⟨m, hm, rfl⟩ := hr
      rw [List.mem_filter] at hm
      exact Or.inr ⟨m, hm.1, by simpa using hm.2, rfl⟩
  · rintro ⟨c, hc, hcase⟩
    refine ⟨c, hc, ?_⟩
    rcases hcase with ⟨rfl, hnone⟩ | ⟨m, hm, hma, rfl⟩
    · have hfil : comm.filter (fun m => decide (m.area = c.areaNumber)) = [] := by
        rw [List.eq_nil_iff_forall_not_mem]
        intro m hmem
        rw [List.mem_filter] at hmem
        exact hnone m hmem.1 (by simpa using hmem.2)
      rw [if_pos hfil]
      simp
    · have hmem : m ∈ comm.filter (fun m => decide (m.area = c.areaNumber)) := by
        rw [List.mem_filter]
        exact ⟨hm, by simp [hma]⟩
      have hfil : comm.filter (fun m => decide (m.area = c.areaNumber)) ≠ [] := by
        intro hnil
        rw [hnil] at hmem
        exact List.not_mem_nil m hmem
      rw [if_neg hfil, List.mem_map]
      exact ⟨m, hmem, rfl⟩

theorem mem_merged_df {comm : List LabeledRow} {census : List CensusRow}
    {r : MergedRow} :
    r ∈ merged_df comm census ↔
      ∃ c ∈ census, ∃ m ∈ comm,
        m.area = c.areaNumber ∧ r = { crime := some m, census := c } ∧
          m.crimeLevel.isSome = true ∧
          c.indicators.all Option.isSome = true := by
  rw [merged_df, dropna, List.mem_filter]
  constructor
  · rintro ⟨hmem, hclean⟩
    obtain ⟨c, hc, hcase⟩ := mem_merge_right.1 hmem
    rcases hcase with ⟨rfl, -⟩ | ⟨m, hm, hma, rfl⟩
    · simp [rowHasNaN] at hclean
    · refine ⟨c, hc, m, hm, hma, rfl, ?_, ?_⟩
      · simp only [rowHasNaN, Bool.not_eq_true', Bool.or_eq_false_iff] at hclean
        simpa [Option.isNone_iff_eq_none, Option.isSome_iff_ne_none]
          using hclean.1
      · simp only [rowHasNaN, Bool.not_eq_true', Bool.or_eq_false_iff] at hclean
        rw [List.all_eq_true]
        intro v hv
        have := List.any_eq_false.mp hclean.2 v hv
        simpa [Option.isSome_iff_ne_none, Option.isNone_iff_eq_none] using this
  · rintro ⟨c, hc, m, hm, hma, rfl, hlvl, hind⟩
    refine ⟨mem_merge_right.2 ⟨c, hc, Or.inr ⟨m, hm, hma, rfl⟩⟩, ?_⟩
    simp only [rowHasNaN, Bool.not_eq_true', Bool.or_eq_false_iff]
    constructor
    · simpa [Option.isNone_iff_eq_none, Option.isSome_iff_ne_none] using hlvl
    · rw [List.any_eq_false]
      intro v hv
      have := List.all_eq_true.mp hind v hv
      simpa [Option.isNone_iff_eq_none, Option.isSome_iff_ne_none] using this

/-- C3: the right join keeps every census record, and the subsequent
`dropna` removes exactly the rows with any gap, so the final joined table
contains precisely the community areas that have both a (fully labeled)
crime aggregate and a complete census record; in particular a census record
for an area with no crime aggregate never survives, and no area outside both
inputs ever appears. -/
theorem join_inner_semantics (comm : List LabeledRow) (census : List CensusRow) :
    (∀ r ∈ merged_df comm census,
        r.census ∈ census
        ∧ ∃ m ∈ comm, r.crime = some m ∧ m.area = r.census.areaNumber
            ∧ m.crimeLevel.isSome = true
            ∧ r.census.indicators.all Option.isSome = true)
    ∧ (∀ a : Int,
        (∃ r ∈ merged_df comm census, r.census.areaNumber = a) ↔
          (∃ m ∈ comm, m.area = a ∧ m.crimeLevel.isSome = true)
          ∧ ∃ c ∈ census, c.areaNumber = a ∧
              c.indicators.all Option.isSome = true) := by
  constructor
  · intro r hr
    obtain ⟨c, hc, m, hm, hma, rfl, hlvl, hind⟩ := mem_merged_df.1 hr
    exact ⟨hc, m, hm, rfl, hma, hlvl, hind⟩
  · intro a
    constructor
    · rintro ⟨r, hr, rfl⟩
      obtain ⟨c, hc, m, hm, hma, rfl, hlvl, hind⟩ := mem_merged_df.1 hr
      exact ⟨⟨m, hm, hma, hlvl⟩, ⟨c, hc, rfl, hind⟩⟩
    · rintro ⟨⟨m, hm, hma, hlvl⟩, ⟨c, hc, hca, hind⟩⟩
      refine ⟨{ crime := some m, census := c }, ?_, hca⟩
      exact mem_merged_df.2 ⟨c, hc, m, hm, by rw [hma, hca], rfl, hlvl, hind⟩

/-! ### Normalization -/

/-- C4: each indicator column is normalized independently with the formula
`(x - min) / (max - min)`, min and max taken over that column within the
joined table; a value equal to the column minimum normalizes to 0, one equal
to the maximum normalizes to 1, and with minimum 10 and maximum 50 the value
30 normalizes to 1/2.  (The degenerate constant column, where max = min, is
excluded here; it is the separate zero-variance condition.) -/
theorem normalize_minmax (comm : List LabeledRow) (census : List CensusRow)
    (k : Nat) (xs : List ℚ)
    (hxs : xs = joinedColumn (merged_df comm census) k)
    (hlt : colMin xs < colMax xs) :
    normalize_df xs =
        xs.map (fun x => (x - colMin xs) / (colMax xs - colMin xs))
    ∧ normValue xs (colMin xs) = 0
    ∧ normValue xs (colMax xs) = 1
    ∧ (colMin xs = 10 → colMax xs = 50 → normValue xs 30 = 1 / 2) := by
  subst hxs
  refine ⟨rfl, ?_, ?_, ?_⟩
  · rw [normValue, sub_self, zero_div]
  · rw [normValue, div_self (sub_ne_zero.mpr (ne_of_gt hlt))]
  · intro h1 h2
    rw [normValue, h1, h2]
    norm_num

/-- C8 evidence: `normalize_df` performs no degenerate-column check.  On a
constant column the pandas-semantics normalization turns every entry into
NaN (`0 / 0`), and the rational model divides by zero silently; neither an
error nor a deliberate 0-fill occurs, and the NaN column flows on to the
caller. -/
theorem normalize_constant_column_nan :
    normalize_df_nan [some 3, some 3] = [none, none]
    ∧ normalize_df [3, 3] = [0, 0] := by
  constructor
  · simp [normalize_df_nan, nanMin, nanMax, nanSub, nanDiv,
      List.min?, List.max?]
  · show [normValue [3, 3] 3, normValue [3, 3] 3] = [0, 0]
    norm_num [normValue, colMin, colMax]

/-- C9 evidence: the evaluation step has no insufficient-data check.  On a
one-row test split whose only true and predicted label is class 0, the
classification report is still produced as a value — with a single row for
class 0 and no rows at all for classes 1 and 2 — rather than failing. -/
theorem classification_report_degenerate_split :
    classification_report [(0 : Fin 3)] [(0 : Fin 3)] = [((0 : Fin 3), 1)] := by
  rfl

/-! ### Missing columns -/

theorem community_data_checked_ok_iff (t : RawTable) (rows : List AggRow) :
    community_data_checked t = Except.ok rows ↔
      ("Year" ∈ t.columns ∧ "Community Area" ∈ t.columns ∧
        "Arrest" ∈ t.columns ∧ "Domestic" ∈ t.columns) ∧
      rows = community_data t.records := by
  by_cases hY : "Year" ∈ t.columns <;>
    by_cases hA : "Community Area" ∈ t.columns <;>
      by_cases hAr : "Arrest" ∈ t.columns <;>
        by_cases hD : "Domestic" ∈ t.columns <;>
          simp [community_data_checked, filter_df_checked, getColumn,
            hY, hA, hAr, hD, Except.bind, eq_comm]

/-- C7: whenever one of the four required input columns is absent, the
aggregation fails with a `MissingColumn` error naming an absent required
column; it never returns an aggregate table built from substituted
defaults. -/
theorem missing_column_error (t : RawTable) :
    (∀ rows : List AggRow, community_data_checked t = Except.ok rows →
        ∀ c ∈ requiredColumns, c ∈ t.columns)
    ∧ ((∃ c ∈ requiredColumns, c ∉ t.columns) →
        ∃ c ∈ requiredColumns, c ∉ t.columns ∧
          community_data_checked t =
            Except.error (PipelineError.MissingColumn c)) := by
  constructor
  · intro rows hok c hc
    obtain ⟨⟨hY, hA, hAr, hD⟩, -⟩ := (community_data_checked_ok_iff t rows).1 hok
    simp only [requiredColumns, List.mem_cons, List.mem_singleton,
      List.not_mem_nil, or_false] at hc
    rcases hc with rfl | rfl | rfl | rfl <;> assumption
  · intro hex
    by_cases hY : "Year" ∈ t.columns
    · by_cases hA : "Community Area" ∈ t.columns
      · by_cases hAr : "Arrest" ∈ t.columns
        · by_cases hD : "Domestic" ∈ t.columns
          · exfalso
            obtain ⟨c, hc, hnot⟩ := hex
            simp only [requiredColumns, List.mem_cons, List.mem_singleton,
              List.not_mem_nil, or_false] at hc
            rcases hc with rfl | rfl | rfl | rfl <;> contradiction
          · refine ⟨"Domestic", by simp [requiredColumns], hD, ?_⟩
            simp [community_data_checked, filter_df_checked, getColumn,
              hY, hA, hAr, hD, Except.bind]
        · refine ⟨"Arrest", by simp [requiredColumns], hAr, ?_⟩
          simp [community_data_checked, filter_df_checked, getColumn,
            hY, hA, hAr, Except.bind]
      · refine ⟨"Community Area", by simp [requiredColumns], hA, ?_⟩
        simp [community_data_checked, filter_df_checked, getColumn,
          hY, hA, Except.bind]
    · refine ⟨"Year", by simp [requiredColumns], hY, ?_⟩
      simp [community_data_checked, filter_df_checked, getColumn,
        hY, Except.bind]

/-! ### Concrete witness data -/

/-- The three-area centroid scenario of the spec: crime counts 100, 10, 5. -/
def centsW : Fin 3 → Centroid := fun i =>
  if i = 0 then { crimeCount := 100, arrestRate := 1/2, domesticRate := 1/10 }
  else if i = 1 then
    { crimeCount := 10, arrestRate := 1/5, domesticRate := 1/20 }
  else { crimeCount := 5, arrestRate := 1/10, domesticRate := 1/50 }

/-- A small incident table: two qualifying records in area 5, one record
outside the year range, one in the reserved area 0, one with a missing
area. -/
def dfW : List Incident :=
  [{ year := 2010, communityArea := some 5, arrest := true, domestic := false },
   { year := 2011, communityArea := some 5, arrest := false, domestic := false },
   { year := 2007, communityArea := some 4, arrest := true, domestic := true },
   { year := 2010, communityArea := some 0, arrest := true, domestic := true },
   { year := 2010, communityArea := none, arrest := true, domestic := true }]

/-- The same incident table with its first two records swapped. -/
def dfWswap : List Incident :=
  [{ year := 2011, communityArea := some 5, arrest := false, domestic := false },
   { year := 2010, communityArea := some 5, arrest := true, domestic := false },
   { year := 2007, communityArea := some 4, arrest := true, domestic := true },
   { year := 2010, communityArea := some 0, arrest := true, domestic := true },
   { year := 2010, communityArea := none, arrest := true, domestic := true }]

/-- Two labeled community rows, areas 7 and 8. -/
def commW : List LabeledRow :=
  [{ area := 7, crimeCount := 3, arrestRate := 1/3, domesticRate := 0,
     cluster := 0, crimeLevel := some "High" },
   { area := 8, crimeCount := 1, arrestRate := 0, domesticRate := 0,
     cluster := 2, crimeLevel := some "Low" }]

/-- Three census rows: area 7 complete, area 9 without a crime aggregate,
area 8 with a missing indicator. -/
def censusW : List CensusRow :=
  [{ areaNumber := 7, indicators := [some 10, some 20] },
   { areaNumber := 9, indicators := [some 1, some 2] },
   { areaNumber := 8, indicators := [none, some 3] }]

/-- Three labeled community rows for the normalization witness. -/
def commW4 : List LabeledRow :=
  [{ area := 1, crimeCount := 1, arrestRate := 0, domesticRate := 0,
     cluster := 0, crimeLevel := some "High" },
   { area := 2, crimeCount := 1, arrestRate := 0, domesticRate := 0,
     cluster := 1, crimeLevel := some "Moderate" },
   { area := 3, crimeCount := 1, arrestRate := 0, domesticRate := 0,
     cluster := 2, crimeLevel := some "Low" }]

/-- Census rows whose single indicator column joins to `[10, 50, 30]`. -/
def censusW4 : List CensusRow :=
  [{ areaNumber := 1, indicators := [some 10] },
   { areaNumber := 2, indicators := [some 50] },
   { areaNumber := 3, indicators := [some 30] }]

/-- An input table that has a `Year` column but no `Community Area`
column. -/
def tW : RawTable := { columns := ["Year"], records := [] }

/-! ### Witnesses -/

theorem relabel_by_centroid_rank_witness :
    mapLevel centsW 0 = some "High" ∧ mapLevel centsW 2 = some "Low" :=
  ⟨(relabel_by_centroid_rank centsW).2.2.2.1 0 (by decide),
   (relabel_by_centroid_rank centsW).2.2.2.2 2 (by decide)⟩

theorem cluster_tier_bijection_witness :
    ∃! i : Fin 3, mapLevel centsW i = some "High" :=
  (cluster_tier_bijection centsW).2.1 "High" (by decide)

theorem aggregator_contract_witness :
    (aggRow dfW 5).arrestRate ≤ 1 ∧ (aggRow dfW 5).area ≠ 0 := by
  have hmem : aggRow dfW 5 ∈ community_data dfW := by
    have hca : communityAreas dfW = [5] := by decide
    rw [community_data, hca]
    exact List.mem_singleton_self _
  have h := (aggregator_contract dfW).2.2.2 (aggRow dfW 5) hmem
  exact ⟨h.2.2.2.2.2.2.1, h.1⟩

theorem join_inner_semantics_witness :
    ∃ r ∈ merged_df commW censusW, r.census.areaNumber = 7 := by
  refine ((join_inner_semantics commW censusW).2 7).mpr ⟨?_, ?_⟩
  · exact ⟨_, List.mem_cons_self _ _, rfl, rfl⟩
  · exact ⟨_, List.mem_cons_self _ _, rfl, rfl⟩

theorem normalize_minmax_witness :
    normValue (joinedColumn (merged_df commW4 censusW4) 0)
        (colMin (joinedColumn (merged_df commW4 censusW4) 0)) = 0
    ∧ normValue (joinedColumn (merged_df commW4 censusW4) 0) 30 = 1 / 2 := by
  have h := normalize_minmax commW4 censusW4 0
    (joinedColumn (merged_df commW4 censusW4) 0) rfl (by decide)
  exact ⟨h.2.1, h.2.2.2 (by decide) (by decide)⟩

theorem pipeline_perm_invariant_witness :
    community_data dfW = community_data dfWswap :=
  (pipeline_perm_invariant dfW dfWswap (by decide)).1

theorem missing_column_error_witness :
    ∃ c ∈ requiredColumns, c ∉ tW.columns ∧
      community_data_checked tW =
        Except.error (PipelineError.MissingColumn c) :=
  (missing_column_error tW).2 ⟨"Community Area", by decide, by decide⟩

end ChicagoCrime
